import Mathlib

/-!
Verification of the runwind in-process stack unwinder.

This file gives a shallow embedding of the crate's core components and
settles the frozen claims against it:

* `src/addr_validate.rs` — the pipe-based address validator (`validate`,
  `open_pipe`, the drain and write loops);
* `src/unwinder.rs` — the stack reader `read_stack` and the frame
  iterator step `UnwindIterator::try_next`;
* `src/object/dl_iterate_phdr.rs` — ELF module discovery
  (`iterate_phdr_cb`, `find_objects`), the live `.eh_frame` scan
  (`find_eh_frame`) and `Object::to_module`;
* `src/object/macos.rs` — the Mach-O load-command scan of `load_object`.

Machine integers are embedded as `Nat` with explicit `% 2 ^ 64` where the
source performs wrapping `usize`/`u64` arithmetic.  OS and external-crate
behaviour (syscall results, the gimli `EhFrameHdr` parse, the dynamic
loader's callback data) enters as explicit oracle parameters, so the
theorems quantify over every environment the code can face.  Loops whose
termination is in question are embedded with an explicit fuel parameter;
`none` marks fuel exhaustion.
-/

/-! ## Common constants -/

/-- Pointer width of the target (x86-64), in bytes. -/
def POINTER_WIDTH : Nat := 8

/-- One past the largest `u64`/`usize` value; wrapping arithmetic reduces
modulo this constant. -/
def U64 : Nat := 2 ^ 64

/-! ## Address validator (`src/addr_validate.rs`) -/

/-- `libc::EINTR`. -/
def EINTR : Int := 4

/-- `libc::EAGAIN`. -/
def EAGAIN : Int := 11

/-- Number of bytes the write probe copies from the probed address:
`2 * size_of::<*const c_void>()`. -/
def CHECK_LENGTH : Nat := 2 * POINTER_WIDTH

/-- The drain loop at the top of `validate`: repeatedly `read` from the
pipe until a branch breaks.  `reads i` is the result of the `i`-th
`read` syscall (an oracle for the OS).  Mirrors the source exactly: the
comparisons against `EINTR`/`EAGAIN` are made on the *return value* of
`read`, after the `res >= 0` test, just as in the source. -/
def drainLoop (reads : Nat → Int) : Nat → Nat → Option Bool
  | 0, _ => none
  | fuel + 1, i =>
    let res := reads i
    if 0 ≤ res then some (decide (0 < res))
    else if res = EINTR then drainLoop reads fuel (i + 1)
    else if res = EAGAIN then some true
    else some false

/-- The write loop at the bottom of `validate`: repeatedly `write` the
probed bytes until a branch breaks.  `writes i` is the result of the
`i`-th `write` syscall. -/
def writeLoop (writes : Nat → Int) : Nat → Nat → Option Bool
  | 0, _ => none
  | fuel + 1, i =>
    let res := writes i
    if 0 ≤ res then some (decide (0 < res))
    else if res = EINTR then writeLoop writes fuel (i + 1)
    else some false

/-- OS oracle for one `validate` call: results of successive `read`
syscalls on the pipe's read end, whether `open_pipe` (pipe re-creation)
would succeed, and the result of the `i`-th `write` of `len` bytes
starting at `addr` into the pipe's write end. -/
structure VEnv where
  reads : Nat → Int
  openOk : Bool
  write : Nat → Nat → Nat → Int

/-- Outcome of one `validate` call: the returned boolean, and whether
`open_pipe` was invoked (pipe re-creation was triggered). -/
structure ValidateOut where
  result : Bool
  reopened : Bool
deriving DecidableEq

/-- `validate(addr)`: drain the pipe's read end; if the drain did not
report success, call `open_pipe` and return `false` when it fails;
otherwise probe `addr` by writing `CHECK_LENGTH` bytes into the pipe's
write end and return whether the write succeeded at least partially. -/
def validate (env : VEnv) (fuel : Nat) (addr : Nat) : Option ValidateOut :=
  match drainLoop env.reads fuel 0 with
  | none => none
  | some validRead =>
    if validRead then
      (writeLoop (env.write addr CHECK_LENGTH) fuel 0).map (fun b => ⟨b, false⟩)
    else if env.openOk then
      (writeLoop (env.write addr CHECK_LENGTH) fuel 0).map (fun b => ⟨b, true⟩)
    else
      some ⟨false, true⟩

/-- A `VEnv` describing a freshly drained (empty) pipe: every `read`
returns `-1` (the C library reports `EAGAIN` through `errno`, and the
return value of a failing `read` is `-1`), `open_pipe` succeeds, and
every write transfers all 16 bytes. -/
def envEmptyPipe : VEnv := ⟨fun _ => -1, true, fun _ _ _ => 16⟩

/-- A `VEnv` whose drain immediately succeeds and whose write transfers
all 16 bytes. -/
def envHappy : VEnv := ⟨fun _ => 16, true, fun _ _ _ => 16⟩

/-! ## Unwind engine glue (`src/unwinder.rs`) -/

/-- The mask `!0b111` at `usize` width: `read_stack` aligns the address
with `addr & !0b111` before validating and dereferencing it. -/
def ALIGN_MASK : Nat := U64 - 8

/-- `addr & !0b111`. -/
def alignDown (addr : Nat) : Nat := addr &&& ALIGN_MASK

/-- `read_stack`: align the address down, consult the address validator
(`validateFn`, an oracle for `crate::addr_validate::validate`), and only
then dereference (`mem` is the process memory, as 64-bit words at the
given address).  An invalid address yields `Err(())`. -/
def read_stack (validateFn : Nat → Bool) (mem : Nat → Nat) (addr : Nat) :
    Except Unit Nat :=
  let aligned := alignDown addr
  if validateFn aligned then Except.ok (mem aligned) else Except.error ()

/-- `framehop::FrameAddress`: the first frame is looked up exactly at the
instruction pointer, later frames at the return address. -/
inductive FrameAddress
  | instructionPointer (a : Nat)
  | returnAddress (a : Nat)
deriving DecidableEq

/-- Step errors of the unwinding engine (`framehop::Error`), abstracted:
only their distinctness from the end-of-stack result matters here. -/
inductive FhError
  | couldNotReadStack
  | framepointerUnwindingMovedBackwards
  | didNotAdvance
  | invalidUnwindData
deriving DecidableEq

/-- `UnwindIterator::try_next`: run one step (`step` is the result of
`unwind_frame`, an oracle for the framehop engine), map a zero return
address to `Ok(None)` via `NonZeroU64::new`, propagate errors with `?`,
and advance the stored frame address on success. -/
def try_next (step : Except FhError (Option Nat)) (cur : FrameAddress) :
    Except FhError (Option Nat) × FrameAddress :=
  match step with
  | Except.error e => (Except.error e, cur)
  | Except.ok none => (Except.ok none, cur)
  | Except.ok (some ra) =>
    if ra = 0 then (Except.ok none, cur)
    else (Except.ok (some ra), FrameAddress.returnAddress ra)

/-! ## ELF module discovery (`src/object/dl_iterate_phdr.rs`) -/

/-- `PT_LOAD`. -/
def PT_LOAD : Nat := 1

/-- `PT_GNU_EH_FRAME`. -/
def PT_GNU_EH_FRAME : Nat := 0x6474e550

/-- `PF_X`, an executable segment. -/
def PF_X : Nat := 1

/-- `PF_R`, a readable segment. -/
def PF_R : Nat := 4

/-- A loaded segment, offset and size relative to the module base
(`super::Segment`). -/
structure Segment where
  p_vaddr : Nat
  p_memsz : Nat
deriving DecidableEq

/-- One ELF program header, the fields `iterate_phdr_cb` inspects. -/
structure Phdr where
  p_type : Nat
  p_flags : Nat
  p_vaddr : Nat
  p_memsz : Nat
deriving DecidableEq

/-- The program-header test of the `.text` arm in `iterate_phdr_cb`:
`PT_LOAD if phdr.p_flags == PF_X | PF_R`. -/
def isRxLoad (p : Phdr) : Bool :=
  decide (p.p_type = PT_LOAD ∧ p.p_flags = PF_X ||| PF_R)

/-- The readable+executable `PT_LOAD` entries of a program-header list. -/
def rxLoads (l : List Phdr) : List Phdr := l.filter isRxLoad

/-- The segment recorded for a matching program header. -/
def toSeg (p : Phdr) : Segment := ⟨p.p_vaddr, p.p_memsz⟩

/-- Result of the program-header loop of `iterate_phdr_cb`: the
candidate text and eh-frame-header segments, and how many duplicate
warnings of each kind were logged. -/
structure PhdrScan where
  textSeg : Option Segment
  ehSeg : Option Segment
  warnText : Nat
  warnEh : Nat
deriving DecidableEq

/-- The program-header loop of `iterate_phdr_cb`, state passed
explicitly: a matching text segment logs a warning when one was already
present and then *overwrites* it; likewise for `PT_GNU_EH_FRAME`. -/
def scanAux : Option Segment → Option Segment → Nat → Nat → List Phdr → PhdrScan
  | t, e, wt, we, [] => ⟨t, e, wt, we⟩
  | t, e, wt, we, p :: rest =>
    if isRxLoad p then
      scanAux (some (toSeg p)) e (wt + if t.isSome then 1 else 0) we rest
    else if p.p_type = PT_GNU_EH_FRAME then
      scanAux t (some (toSeg p)) wt (we + if e.isSome then 1 else 0) rest
    else
      scanAux t e wt we rest

/-- The program-header loop, started from the empty state. -/
def scanPhdrs (l : List Phdr) : PhdrScan := scanAux none none 0 0 l

/-! ### The live `.eh_frame` scan (`find_eh_frame`) -/

/-- One byte of process memory (values reduced modulo 256). -/
def byteAt (m : Nat → Nat) (a : Nat) : Nat := m a % 256

/-- The little-endian `u32` read `*(a as *const u32)`. -/
def read32 (m : Nat → Nat) (a : Nat) : Nat :=
  byteAt m a + 256 * byteAt m (a + 1) + 65536 * byteAt m (a + 2) +
    16777216 * byteAt m (a + 3)

/-- The little-endian `u64` read `*(a as *const u64)`. -/
def read64 (m : Nat → Nat) (a : Nat) : Nat :=
  read32 m a + 4294967296 * read32 m (a + 4)

/-- Advance past one call-frame record, exactly as both loop bodies of
`find_eh_frame` do: 4-byte length field, with the extended 64-bit length
when the 32-bit field is `0xffffffff`; `usize` addition wraps. -/
def recAdvance (m : Nat → Nat) (p : Nat) : Nat :=
  let len := read32 m p
  if len = 4294967295 then (p + 4 + 8 + read64 m (p + 4)) % U64
  else (p + 4 + len) % U64

/-- Position in the nested record walk of `find_eh_frame`: `outer` is
the head of the outer chain (`cie_ptr`), `inner` the inner cursor
(`fde_ptr`). -/
inductive WalkState
  | outer (p : Nat)
  | inner (p : Nat)

/-- The nested loops of `find_eh_frame`, flattened into a step function
on `WalkState` with explicit fuel (`none` = fuel ran out, i.e. the walk
made at least that many steps).  The outer loop stops and returns
`cie_ptr` when it reads a zero length; a zero length in the inner loop
moves the outer cursor just past it and continues. -/
def runWalk (m : Nat → Nat) : Nat → WalkState → Option Nat
  | 0, _ => none
  | fuel + 1, WalkState.outer p =>
    if read32 m p = 0 then some p
    else runWalk m fuel (WalkState.inner (recAdvance m p))
  | fuel + 1, WalkState.inner p =>
    if read32 m p = 0 then runWalk m fuel (WalkState.outer ((p + 4) % U64))
    else runWalk m fuel (WalkState.inner (recAdvance m p))

/-- `EhFrameData`: the byte ranges (half-open, as start/end pairs) of
the `.eh_frame_hdr` segment and of the scanned `.eh_frame` records. -/
structure EhFrameData where
  eh_frame_hdr : Nat × Nat
  eh_frame : Nat × Nat
deriving DecidableEq

/-- Environment of the discovery scan: the gimli `EhFrameHdr::parse`
result (an oracle for the external crate: given the address of the
`.eh_frame_hdr` data it returns the direct `eh_frame_ptr`, or `none` on
a parse failure or an indirect pointer), the process memory the record
walk reads, and the result of `env::current_exe()`. -/
structure DiscoverEnv where
  parseHdr : Nat → Option Nat
  mem : Nat → Nat
  currentExe : Option String

/-- `find_eh_frame`: parse the `.eh_frame_hdr` to obtain `eh_frame_ptr`,
then walk the record chain until the outer loop reads a zero length; the
resulting `.eh_frame` range runs from `eh_frame_ptr` to `cie_ptr + 4`. -/
def find_eh_frame (env : DiscoverEnv) (fuel : Nat) (base_addr : Nat)
    (seg : Segment) : Option EhFrameData :=
  match env.parseHdr (base_addr + seg.p_vaddr) with
  | none => none
  | some ehFramePtr =>
    match runWalk env.mem fuel (WalkState.outer ehFramePtr) with
    | none => none
    | some ciePtr =>
      some ⟨(base_addr + seg.p_vaddr, base_addr + seg.p_vaddr + seg.p_memsz),
            (ehFramePtr, ciePtr + 4)⟩

/-! ### Objects and modules -/

/-- The name of the `.eh_frame` section. -/
def sectEhFrame : String := ".eh_frame"

/-- The name of the `.eh_frame_hdr` section. -/
def sectEhFrameHdr : String := ".eh_frame_hdr"

/-- The empty `dlpi_name` reported for the main executable. -/
def emptyName : String := ""

/-- `ObjectMmap` of `dl_iterate_phdr.rs`: a parsed view over a mapped
file; `sections` abstracts `section_range` lookups into the parsed
object file. -/
structure ObjectMmap where
  sections : String → Option (Nat × Nat)

/-- `ObjectMmap::new` in `dl_iterate_phdr.rs`: the entire body is
commented out and the function returns `None` unconditionally. -/
def ObjectMmap.new (_path : String) : Option ObjectMmap := none

/-- `UnwindData`: either a mapped file or the live-scanned ranges. -/
inductive UnwindData
  | mmap (m : ObjectMmap)
  | ehFrame (d : EhFrameData)

/-- A discovered `Object`. -/
structure Object where
  path : String
  base_addr : Nat
  text : Segment
  unwind_data : UnwindData

/-- The runtime text range of an object,
`base_addr + text.p_vaddr .. base_addr + text.p_vaddr + text.p_memsz`. -/
def textRange (o : Object) : Nat × Nat :=
  (o.base_addr + o.text.p_vaddr, o.base_addr + o.text.p_vaddr + o.text.p_memsz)

/-- The ways `Object::to_module` can abort the process; `todoStub` is
the `todo!()` in the `UnwindData::EhFrame` arm. -/
inductive PanicKind
  | todoStub
deriving DecidableEq

/-- The parts of a `framehop::Module` this development needs. -/
structure ModuleM where
  name : String
  textLo : Nat
  textHi : Nat
  ehFrame : Option (Nat × Nat)
  ehFrameHdr : Option (Nat × Nat)

/-- `Object::to_module`: the `Mmap` arm builds a module from the mapped
file's sections; the `EhFrame` arm is `todo!()` and aborts. -/
def Object.to_module (o : Object) : Except PanicKind ModuleM :=
  match o.unwind_data with
  | UnwindData.mmap m =>
    Except.ok ⟨o.path, o.base_addr + o.text.p_vaddr,
      o.base_addr + o.text.p_vaddr + o.text.p_memsz,
      m.sections sectEhFrame, m.sections sectEhFrameHdr⟩
  | UnwindData.ehFrame _ => Except.error PanicKind.todoStub

/-- One `dl_phdr_info` record as delivered to the callback. -/
structure PhdrInfo where
  dlpi_addr : Nat
  dlpi_name : String
  phdrs : List Phdr

/-- `iterate_phdr_cb` for a single module: resolve the path (empty name
means the current executable), scan the program headers, require a text
segment, try `ObjectMmap::new` and fall back to the live `.eh_frame`
scan; `none` means the module is skipped with a warning. -/
def iterate_phdr_cb (env : DiscoverEnv) (fuel : Nat) (info : PhdrInfo) :
    Option Object :=
  match (if info.dlpi_name = emptyName then env.currentExe
         else some info.dlpi_name) with
  | none => none
  | some path =>
    match (scanPhdrs info.phdrs).textSeg with
    | none => none
    | some text =>
      match ObjectMmap.new path with
      | some m => some ⟨path, info.dlpi_addr, text, UnwindData.mmap m⟩
      | none =>
        match (scanPhdrs info.phdrs).ehSeg with
        | none => none
        | some ehSeg =>
          match find_eh_frame env fuel info.dlpi_addr ehSeg with
          | none => none
          | some d => some ⟨path, info.dlpi_addr, text, UnwindData.ehFrame d⟩

/-- `find_objects`: run the callback over every module the dynamic
loader reports, in the loader's order, collecting the accepted ones. -/
def find_objects (env : DiscoverEnv) (fuel : Nat) (infos : List PhdrInfo) :
    List Object :=
  infos.filterMap (iterate_phdr_cb env fuel)

/-- Pairwise check of a relation along a list, used to state sortedness
and range disjointness of a discovered module list. -/
def pairwiseB (r : Object → Object → Bool) : List Object → Bool
  | [] => true
  | a :: rest => (rest.all fun b => r a b) && pairwiseB r rest

/-- Strictly increasing base addresses. -/
def baseLtB (a b : Object) : Bool := decide (a.base_addr < b.base_addr)

/-- Disjoint text ranges. -/
def disjointB (a b : Object) : Bool :=
  decide ((textRange a).2 ≤ (textRange b).1 ∨ (textRange b).2 ≤ (textRange a).1)

/-! ### Concrete discovery scenarios -/

/-- All-zero process memory: the record walk sees an immediate
terminator. -/
def zeroMem : Nat → Nat := fun _ => 0

/-- Path of the main executable in the examples. -/
def exePath : String := "/bin/app"

/-- A shared-library path. -/
def libaPath : String := "liba.so"

/-- Another shared-library path. -/
def libbPath : String := "libb.so"

/-- Discovery environment whose header parse always yields
`eh_frame_ptr = 0` over all-zero memory. -/
def envZ : DiscoverEnv := ⟨fun _ => some 0, zeroMem, some exePath⟩

/-- A module at base 4096 with one RX load segment of 8192 bytes and an
eh-frame-header segment. -/
def infoA : PhdrInfo :=
  ⟨4096, libaPath, [⟨1, 5, 0, 8192⟩, ⟨0x6474e550, 4, 512, 16⟩]⟩

/-- A module at base 8192 with one RX load segment of 4096 bytes and an
eh-frame-header segment; its text range overlaps `infoA`'s. -/
def infoB : PhdrInfo :=
  ⟨8192, libbPath, [⟨1, 5, 0, 4096⟩, ⟨0x6474e550, 4, 768, 16⟩]⟩

/-- The object `iterate_phdr_cb` produces for `infoA` under `envZ`. -/
def objA : Object :=
  ⟨libaPath, 4096, ⟨0, 8192⟩, UnwindData.ehFrame ⟨(4608, 4624), (0, 4)⟩⟩

/-- Program headers with two readable+executable `PT_LOAD` entries. -/
def phdrsDup : List Phdr := [⟨1, 5, 4096, 256⟩, ⟨1, 5, 12288, 512⟩]

/-- Process memory on which the record walk makes zero forward progress:
the record at 0 declares length 8, and the record at 12 uses the
extended encoding with length `2 ^ 64 - 12`, so the wrapped advance
returns to 12. -/
def badMem : Nat → Nat := fun a =>
  if a = 0 then 8
  else if a < 12 then 0
  else if a < 16 then 255
  else if a = 16 then 244
  else if a < 24 then 255
  else 0

/-! ## Mach-O module discovery (`src/object/macos.rs`) -/

/-- The `__TEXT` segment name. -/
def textSegName : String := "__TEXT"

/-- One `LC_SEGMENT_64` load command, the fields `load_object` reads. -/
structure MachSeg where
  segname : String
  vmaddr : Nat
  vmsize : Nat
  fileoff : Nat
  filesize : Nat
deriving DecidableEq

/-- The load-command loop of `load_object`: remember the (last) `__TEXT`
segment, count duplicate warnings, and set `text_fileoff_zero` when some
`__TEXT` segment starts at file offset zero with nonzero file size. -/
def machScanAux : Option Segment → Bool → Nat → List MachSeg →
    Option Segment × Bool × Nat
  | t, z, w, [] => (t, z, w)
  | t, z, w, s :: rest =>
    if s.segname = textSegName then
      machScanAux (some ⟨s.vmaddr, s.vmsize⟩)
        (z || decide (s.fileoff = 0 ∧ 0 < s.filesize))
        (w + if t.isSome then 1 else 0) rest
    else machScanAux t z w rest

/-- The address computation of `load_object` after the loop (header
validation, path lookup and the mmap are left to the environment):
require a `__TEXT` segment, then set `base_addr` to its stated `vmaddr`
and zero the segment's stated address — unconditionally; the
`text_fileoff_zero` flag is computed but never consulted (the
conditional slide adjustment is commented out in the source).  Returns
`(base_addr, text segment, text_fileoff_zero, duplicate warnings)`. -/
def load_object (segs : List MachSeg) : Option (Nat × Segment × Bool × Nat) :=
  match machScanAux none false 0 segs with
  | (none, _, _) => none
  | (some t, z, w) => some (t.p_vaddr, ⟨0, t.p_memsz⟩, z, w)

/-- A `__TEXT` segment that begins at file offset zero with nonzero file
size and a nonzero stated `vmaddr`. -/
def segT : MachSeg := ⟨textSegName, 4294967296, 16384, 0, 16384⟩

/-! ## Helper lemmas -/

/-- The drain loop always breaks on its first iteration: the `EINTR` and
`EAGAIN` comparisons are made against the return value after the
`res >= 0` test, so both arms are unreachable, and the loop reports
success exactly when the first `read` returned a positive count. -/
theorem drainLoop_step (r : Nat → Int) (fuel i : Nat) :
    drainLoop r (fuel + 1) i = some (decide (0 < r i)) := by
  rcases lt_or_ge (r i) 0 with h | h
  · have h1 : ¬ (0 : Int) ≤ r i := by omega
    have h2 : ¬ r i = EINTR := by unfold EINTR; omega
    have h3 : ¬ r i = EAGAIN := by unfold EAGAIN; omega
    have h4 : ¬ (0 : Int) < r i := by omega
    simp only [drainLoop, h1, h2, h3, if_false, if_neg]
    simp [h4]
  · simp only [drainLoop]
    rw [if_pos h]

/-- The write loop always breaks on its first iteration, reporting
success exactly when the first `write` returned a positive count. -/
theorem writeLoop_step (w : Nat → Int) (fuel i : Nat) :
    writeLoop w (fuel + 1) i = some (decide (0 < w i)) := by
  rcases lt_or_ge (w i) 0 with h | h
  · have h1 : ¬ (0 : Int) ≤ w i := by omega
    have h2 : ¬ w i = EINTR := by unfold EINTR; omega
    have h4 : ¬ (0 : Int) < w i := by omega
    simp only [writeLoop, h1, h2, if_false, if_neg]
    simp [h4]
  · simp only [writeLoop]
    rw [if_pos h]

/-- The text-segment accumulator of the program-header loop is a fold
that overwrites on every readable+executable `PT_LOAD`. -/
theorem scanAux_textSeg (l : List Phdr) : ∀ t e wt we,
    (scanAux t e wt we l).textSeg =
      (rxLoads l).foldl (fun _ p => some (toSeg p)) t := by
  induction l with
  | nil => intro t e wt we; rfl
  | cons p rest ih =>
    intro t e wt we
    by_cases hrx : isRxLoad p = true
    · simp only [scanAux, hrx, if_true, rxLoads, List.filter_cons, List.foldl_cons]
      exact ih (some (toSeg p)) e (wt + if t.isSome then 1 else 0) we
    · simp only [rxLoads, List.filter_cons, hrx]
      by_cases heh : p.p_type = PT_GNU_EH_FRAME
      · simp only [scanAux, hrx, heh, if_true, if_false, Bool.false_eq_true]
        exact ih t (some (toSeg p)) wt (we + if e.isSome then 1 else 0)
      · simp only [scanAux, hrx, heh, if_false, Bool.false_eq_true]
        exact ih t e wt we

/-- Folding an overwrite over a list keeps its last element. -/
theorem foldl_keep_last (xs : List Phdr) : ∀ a : Option Segment,
    xs.foldl (fun _ p => some (toSeg p)) a =
      match xs.getLast? with
      | some q => some (toSeg q)
      | none => a := by
  induction xs using List.reverseRecOn with
  | nil => intro a; rfl
  | append_singleton ys p ih =>
    intro a
    rw [List.foldl_append, List.getLast?_concat, ih a]
    cases ys.getLast? <;> rfl

/-- Warning count of the program-header loop: the counter never
decreases, and a second readable+executable `PT_LOAD` (or a first one
when a text segment is already pending) bumps it. -/
theorem scanAux_warnText (l : List Phdr) : ∀ t e wt we,
    wt ≤ (scanAux t e wt we l).warnText ∧
    (t.isSome = true → 1 ≤ (rxLoads l).length →
      wt + 1 ≤ (scanAux t e wt we l).warnText) ∧
    (2 ≤ (rxLoads l).length → wt + 1 ≤ (scanAux t e wt we l).warnText) := by
  induction l with
  | nil =>
    intro t e wt we
    refine ⟨le_refl _, ?_, ?_⟩ <;> simp [rxLoads]
  | cons p rest ih =>
    intro t e wt we
    by_cases hrx : isRxLoad p = true
    · simp only [scanAux, hrx, if_true, rxLoads, List.filter_cons, List.length_cons]
      cases t with
      | some s =>
        have h := ih (some (toSeg p)) e (wt + 1) we
        refine ⟨le_trans (Nat.le_succ wt) h.1, fun _ _ => h.1, fun _ => h.1⟩
      | none =>
        simp only [Option.isSome_none, Bool.false_eq_true, if_false, Nat.add_zero]
        have h := ih (some (toSeg p)) e wt we
        refine ⟨h.1, ?_, ?_⟩
        · intro hsome
          simp at hsome
        · intro hlen
          have h1 : 1 ≤ (rxLoads rest).length := by
            simp only [rxLoads] at hlen ⊢
            omega
          have := h.2.1 rfl h1
          omega
    · have hsame : rxLoads (p :: rest) = rxLoads rest := by
        simp [rxLoads, List.filter_cons, hrx]
      by_cases heh : p.p_type = PT_GNU_EH_FRAME
      · simp only [scanAux, hrx, heh, if_true, if_false, Bool.false_eq_true, hsame]
        exact ih t (some (toSeg p)) wt (we + if e.isSome then 1 else 0)
      · simp only [scanAux, hrx, heh, if_false, Bool.false_eq_true, hsame]
        exact ih t e wt we

/-- A 4-byte little-endian read is below `2 ^ 32`. -/
theorem read32_lt (m : Nat → Nat) (a : Nat) : read32 m a < 4294967296 := by
  unfold read32 byteAt
  have h0 : m a % 256 < 256 := Nat.mod_lt _ (by norm_num)
  have h1 : m (a + 1) % 256 < 256 := Nat.mod_lt _ (by norm_num)
  have h2 : m (a + 2) % 256 < 256 := Nat.mod_lt _ (by norm_num)
  have h3 : m (a + 3) % 256 < 256 := Nat.mod_lt _ (by norm_num)
  omega

/-- The mask `!0b111` rounds an in-range address down to the enclosing
8-byte boundary. -/
theorem alignDown_eq (addr : Nat) (h : addr < U64) :
    alignDown addr = addr - addr % 8 := by
  have hsub : addr - addr % 8 = (addr >>> 3) <<< 3 := by
    rw [Nat.shiftRight_eq_div_pow, Nat.shiftLeft_eq]
    norm_num
    omega
  rw [hsub]
  unfold alignDown ALIGN_MASK U64
  have hmask : (2 : Nat) ^ 64 - 8 = (2 ^ 61 - 1) <<< 3 := by
    rw [Nat.shiftLeft_eq]
    norm_num
  apply Nat.eq_of_testBit_eq
  intro i
  rw [Nat.testBit_land, hmask, Nat.testBit_shiftLeft, Nat.testBit_shiftLeft,
    Nat.testBit_shiftRight, Nat.testBit_two_pow_sub_one]
  by_cases h3 : 3 ≤ i
  · have h33 : 3 + (i - 3) = i := by omega
    rw [h33]
    by_cases h64 : i < 64
    · have hlt : i - 3 < 61 := by omega
      simp [ge_iff_le, h3, hlt]
    · have hU : U64 ≤ 2 ^ i := by
        unfold U64
        exact Nat.pow_le_pow_right (by norm_num) (by omega)
      have hf : addr.testBit i = false :=
        Nat.testBit_eq_false_of_lt (lt_of_lt_of_le h hU)
      have hge : ¬ (i - 3 < 61) := by omega
      simp [ge_iff_le, h3, hge, hf]
  · simp [ge_iff_le, h3]

/-- Every object the callback accepts carries the base address the
loader reported for it. -/
theorem iterate_phdr_cb_base (env : DiscoverEnv) (fuel : Nat) (i : PhdrInfo)
    (o : Object) (h : iterate_phdr_cb env fuel i = some o) :
    o.base_addr = i.dlpi_addr := by
  unfold iterate_phdr_cb at h
  simp only [ObjectMmap.new] at h
  repeat' split at h
  all_goals (try exact Option.noConfusion h)
  all_goals (cases h; rfl)

/-- Because `ObjectMmap::new` never succeeds, every object the callback
accepts carries live-scan (`EhFrame`) unwind data. -/
theorem iterate_phdr_cb_ehframe (env : DiscoverEnv) (fuel : Nat) (i : PhdrInfo)
    (o : Object) (h : iterate_phdr_cb env fuel i = some o) :
    ∃ d, o.unwind_data = UnwindData.ehFrame d := by
  unfold iterate_phdr_cb at h
  simp only [ObjectMmap.new] at h
  repeat' split at h
  all_goals (try exact Option.noConfusion h)
  all_goals (cases h; exact ⟨_, rfl⟩)

/-- The base addresses of the discovered objects form a subsequence of
the base addresses the loader reported, in the loader's order: the scan
neither sorts nor reorders. -/
theorem find_objects_bases (env : DiscoverEnv) (fuel : Nat)
    (infos : List PhdrInfo) :
    List.Sublist ((find_objects env fuel infos).map Object.base_addr)
      (infos.map PhdrInfo.dlpi_addr) := by
  induction infos with
  | nil => simp [find_objects]
  | cons i rest ih =>
    simp only [find_objects, List.filterMap_cons, List.map_cons]
    cases hcb : iterate_phdr_cb env fuel i with
    | none => exact List.Sublist.cons _ ih
    | some o =>
      rw [List.map_cons, iterate_phdr_cb_base env fuel i o hcb]
      exact List.Sublist.cons₂ _ ih

/-! ## Claim theorems -/

/-- C2 (counterexample): on program headers with two readable+executable
`PT_LOAD` segments (at 4096 and 12288), the scan keeps the *second*
segment, not the first as the claim states — the loop overwrites the
pending text segment — while still logging one duplicate warning. -/
theorem c2_counterexample :
    (scanPhdrs phdrsDup).textSeg = some ⟨12288, 512⟩ ∧
    (scanPhdrs phdrsDup).textSeg ≠ some ⟨4096, 256⟩ ∧
    (scanPhdrs phdrsDup).warnText = 1 := by decide

/-- C2 (amended): whenever the program headers contain at least two
readable+executable `PT_LOAD` segments, discovery logs a duplicate
warning and keeps the *last* such segment as the module's text
segment. -/
theorem c2_keeps_last_and_warns (phdrs : List Phdr)
    (h : 2 ≤ (rxLoads phdrs).length) :
    1 ≤ (scanPhdrs phdrs).warnText ∧
    (scanPhdrs phdrs).textSeg = ((rxLoads phdrs).getLast?).map toSeg := by
  constructor
  · have hw := (scanAux_warnText phdrs none none 0 0).2.2 h
    unfold scanPhdrs
    omega
  · rw [scanPhdrs, scanAux_textSeg, foldl_keep_last]
    cases (rxLoads phdrs).getLast? <;> rfl

/-- C2 (witness for the amended claim at the two-segment input). -/
theorem c2_keeps_last_and_warns_witness :
    1 ≤ (scanPhdrs phdrsDup).warnText ∧
    (scanPhdrs phdrsDup).textSeg = ((rxLoads phdrsDup).getLast?).map toSeg :=
  c2_keeps_last_and_warns phdrsDup (by decide)

/-- C3: as long as the pipe machinery is functional (`open_pipe`
succeeds whenever it is invoked), `validate` returns `true` exactly when
the non-blocking write of `CHECK_LENGTH = 2 * POINTER_WIDTH` bytes
starting at `addr` into the pipe's write end transfers at least one
byte, and returns `false` — rather than faulting — exactly when that
write fails (returns zero or an error). -/
theorem c3_validate_iff_write (env : VEnv) (fuel addr : Nat)
    (hopen : env.openOk = true) :
    ((validate env (fuel + 1) addr).map ValidateOut.result = some true ↔
      0 < env.write addr CHECK_LENGTH 0) ∧
    ((validate env (fuel + 1) addr).map ValidateOut.result = some false ↔
      env.write addr CHECK_LENGTH 0 ≤ 0) := by
  have key : (validate env (fuel + 1) addr).map ValidateOut.result =
      some (decide (0 < env.write addr CHECK_LENGTH 0)) := by
    unfold validate
    rw [drainLoop_step]
    by_cases hr : (0 : Int) < env.reads 0
    · simp [hr, writeLoop_step]
    · simp [hr, hopen, writeLoop_step]
  rw [key]
  constructor
  · constructor
    · intro hsome
      have := Option.some_injective _ hsome
      exact of_decide_eq_true this
    · intro hw
      rw [decide_eq_true hw]
  · constructor
    · intro hsome
      have := Option.some_injective _ hsome
      have := of_decide_eq_false this
      omega
    · intro hw
      have : ¬ (0 : Int) < env.write addr CHECK_LENGTH 0 := by omega
      rw [decide_eq_false this]

/-- C3 (witness): with a functional pipe and a write that transfers all
bytes, `validate` reports `true`. -/
theorem c3_validate_iff_write_witness :
    (validate envHappy 1 0).map ValidateOut.result = some true :=
  (c3_validate_iff_write envHappy 0 0 rfl).1.mpr (by decide)

/-- C4 (code divergence): on a pipe with no data available the `read`
syscall returns `-1` (reporting `EAGAIN` via `errno`), but the drain
loop compares the *return value* against the `EAGAIN` constant — a
comparison that can never hold once `res >= 0` has failed — so the
"no data" drain is classified as a failure and `validate` invokes
`open_pipe` (the `reopened` flag) before the write probe, contrary to
the claim that "no data" counts as success and triggers no
re-creation. -/
theorem c4_drain_empty_pipe :
    drainLoop envEmptyPipe.reads 5 0 = some false ∧
    validate envEmptyPipe 5 0 = some ⟨true, true⟩ := by decide

/-- C5: `read_stack` dereferences only addresses the validator approved:
an `Ok` result implies `validate` returned `true` for the (aligned)
address that was read, and a `false` validation forces the error
result, so an invalid address ends the step with `Err` and no memory
access. -/
theorem c5_read_stack_guarded (v : Nat → Bool) (m : Nat → Nat)
    (addr r : Nat) :
    (read_stack v m addr = Except.ok r →
      v (alignDown addr) = true ∧ r = m (alignDown addr)) ∧
    (v (alignDown addr) = false → read_stack v m addr = Except.error ()) := by
  constructor
  · intro h
    unfold read_stack at h
    by_cases hv : v (alignDown addr) = true
    · rw [if_pos hv] at h
      injection h with h1
      exact ⟨hv, h1.symm⟩
    · rw [if_neg hv] at h
      exact Except.noConfusion h
  · intro hv
    unfold read_stack
    simp [hv]

/-- C5 (witness): a validator that rejects everything forces the error
result. -/
theorem c5_read_stack_guarded_witness :
    read_stack (fun _ => false) (fun _ => 0) 0 = Except.error () :=
  (c5_read_stack_guarded (fun _ => false) (fun _ => 0) 0 0).2 rfl

/-- C6: a step whose computed return address is zero makes `try_next`
return `Ok(None)` (normal end of stack), a failing step propagates its
error unchanged, and the error result is distinct from the
end-of-sequence result. -/
theorem c6_try_next_terminal (cur : FrameAddress) (e : FhError) :
    (try_next (Except.ok (some 0)) cur).1 = Except.ok none ∧
    (try_next (Except.error e) cur).1 = Except.error e ∧
    Except.error e ≠ (Except.ok none : Except FhError (Option Nat)) := by
  refine ⟨rfl, rfl, fun h => Except.noConfusion h⟩

/-- C7 (counterexample): a live record at address 12 whose 32-bit length
field is `0xffffffff` and whose extended 64-bit length is `2^64 - 12`
makes the wrapped advance return to 12 — zero forward progress on a
nonzero-length record — so a walk that reaches it (here started from
the chain head at 0) exhausts any fuel without terminating. -/
theorem c7_counterexample :
    read32 badMem 12 = 4294967295 ∧
    read32 badMem 12 ≠ 0 ∧
    recAdvance badMem 12 = 12 ∧
    runWalk badMem 64 (WalkState.outer 0) = none := by decide

/-- C7 (amended): each step of the record walk advances by the record's
self-declared length modulo `2^64` (the extended 64-bit length being
used exactly when the 32-bit field is `0xffffffff`); a step whose
length uses the 32-bit encoding always moves the cursor, and the walk
stops — returning the final cursor — when a zero length heads the outer
chain; but a record with extended length `2^64 - 12` yields zero
forward progress, so the walk on `badMem` never terminates, for any
amount of fuel. -/
theorem c7_amended_walk (m : Nat → Nat) (p fuel : Nat) :
    (read32 m p ≠ 4294967295 →
      recAdvance m p = (p + 4 + read32 m p) % U64) ∧
    (read32 m p = 4294967295 →
      recAdvance m p = (p + 12 + read64 m (p + 4)) % U64) ∧
    (p < U64 → read32 m p ≠ 0 → read32 m p ≠ 4294967295 →
      recAdvance m p ≠ p) ∧
    (read32 m p = 0 → runWalk m (fuel + 1) (WalkState.outer p) = some p) ∧
    runWalk badMem fuel (WalkState.inner 12) = none := by
  refine ⟨?_, ?_, ?_, ?_, ?_⟩
  · intro hne
    unfold recAdvance
    rw [if_neg hne]
  · intro heq
    unfold recAdvance
    rw [if_pos heq]
  · intro hp h0 hff hcontra
    have hb := read32_lt m p
    unfold recAdvance at hcontra
    rw [if_neg hff] at hcontra
    unfold U64 at hcontra hp
    omega
  · intro h0
    simp [runWalk, h0]
  · induction fuel with
    | zero => rfl
    | succ n ih =>
      have h1 : ¬ read32 badMem 12 = 0 := by decide
      have h2 : recAdvance badMem 12 = 12 := by decide
      simp only [runWalk, h1, if_false, h2, Bool.false_eq_true]
      exact ih

/-- C7 (witness for the amended claim: a 32-bit-encoded record of
length `0x01010101` at address 0 moves the cursor). -/
theorem c7_amended_walk_witness : recAdvance (fun _ => 1) 0 ≠ 0 :=
  (c7_amended_walk (fun _ => 1) 0 0).2.2.1 (by decide) (by decide) (by decide)

/-- C1 (counterexample): when the loader reports the module at base 8192
before the module at base 4096 (with text ranges 8192..12288 and
4096..12288), `find_objects` emits the modules in exactly that order:
the produced list is neither sorted by base address nor are its text
ranges disjoint — the scan performs no sorting and no overlap check. -/
theorem c1_counterexample :
    pairwiseB baseLtB (find_objects envZ 1 [infoB, infoA]) = false ∧
    pairwiseB disjointB (find_objects envZ 1 [infoB, infoA]) = false ∧
    (find_objects envZ 1 [infoB, infoA]).map Object.base_addr =
      [8192, 4096] := by decide

/-- C1 (amended): the module list produced by `find_objects` preserves
the order in which `dl_iterate_phdr` reports the modules — its base
addresses form a subsequence of the reported ones — so it is sorted in
increasing base-address order whenever the loader reports the modules
in that order; the scan itself neither sorts nor checks overlap. -/
theorem c1_order_preserved (env : DiscoverEnv) (fuel : Nat)
    (infos : List PhdrInfo) :
    List.Sublist ((find_objects env fuel infos).map Object.base_addr)
      (infos.map PhdrInfo.dlpi_addr) ∧
    (List.Pairwise (· < ·) (infos.map PhdrInfo.dlpi_addr) →
      List.Pairwise (· < ·)
        ((find_objects env fuel infos).map Object.base_addr)) :=
  ⟨find_objects_bases env fuel infos,
   fun hp => List.Pairwise.sublist (find_objects_bases env fuel infos) hp⟩

/-- C1 (witness for the amended claim: with the loader reporting bases
4096 then 8192 in order, the output is sorted). -/
theorem c1_order_preserved_witness :
    List.Pairwise (· < ·)
      ((find_objects envZ 1 [infoA, infoB]).map Object.base_addr) :=
  (c1_order_preserved envZ 1 [infoA, infoB]).2 (by decide)

/-- C8 (code evaluation at the failing input): for a 64-bit Mach-O image
whose single `__TEXT` segment begins at file offset zero with nonzero
file size — the case in which the claim (and the comment in the source)
says the stated virtual addresses must *not* be shifted —
`load_object` still rebases unconditionally: the module base becomes
the stated `vmaddr` 4294967296 and the stated text address is zeroed,
even though the `text_fileoff_zero` flag was computed as `true`. -/
theorem c8_unconditional_rebase :
    load_object [segT] = some (4294967296, ⟨0, 16384⟩, true, 0) ∧
    segT.fileoff = 0 ∧ 0 < segT.filesize ∧ segT.vmaddr ≠ 0 := by decide

/-- C9: `ObjectMmap::new` in `dl_iterate_phdr.rs` returns `None` for
every path, so every object discovery accepts carries the live-scan
(`EhFrame`) unwind data, and `Object::to_module` on such an object
aborts in the `todo!()` stub instead of returning a module — building
the unwinder's module table panics rather than degrading. -/
theorem c9_live_scan_panics :
    (∀ p : String, ObjectMmap.new p = none) ∧
    (∀ (env : DiscoverEnv) (fuel : Nat) (infos : List PhdrInfo)
      (obj : Object), obj ∈ find_objects env fuel infos →
      (∃ d, obj.unwind_data = UnwindData.ehFrame d) ∧
      obj.to_module = Except.error PanicKind.todoStub) := by
  refine ⟨fun _ => rfl, ?_⟩
  intro env fuel infos obj hmem
  have hmem2 : obj ∈ List.filterMap (iterate_phdr_cb env fuel) infos := hmem
  rcases List.mem_filterMap.mp hmem2 with ⟨i, _, hcb⟩
  obtain ⟨d, hd⟩ := iterate_phdr_cb_ehframe env fuel i obj hcb
  refine ⟨⟨d, hd⟩, ?_⟩
  unfold Object.to_module
  rw [hd]

/-- C9 (witness): the object discovered for `infoA` under `envZ` holds
live-scan data and its `to_module` call hits the stub. -/
theorem c9_live_scan_panics_witness :
    (∃ d, objA.unwind_data = UnwindData.ehFrame d) ∧
    objA.to_module = Except.error PanicKind.todoStub :=
  c9_live_scan_panics.2 envZ 1 [infoA] objA (by
    have h : find_objects envZ 1 [infoA] = [objA] := rfl
    rw [h]
    exact List.mem_singleton_self objA)

/-- C10: `read_stack` first rounds the address down to the enclosing
8-byte boundary — `addr & !0b111` equals `addr - addr % 8` — and both
validates and dereferences that aligned address: the call behaves
exactly as a call on the aligned address, and a validated read returns
the word stored at the aligned address; for an unaligned `addr` the
aligned address is strictly below `addr`. -/
theorem c10_align_down (v : Nat → Bool) (m : Nat → Nat) (addr : Nat)
    (h : addr < U64) :
    alignDown addr = addr - addr % 8 ∧
    alignDown addr % 8 = 0 ∧
    alignDown addr ≤ addr ∧
    read_stack v m addr = read_stack v m (alignDown addr) ∧
    (v (alignDown addr) = true →
      read_stack v m addr = Except.ok (m (alignDown addr))) ∧
    (addr % 8 ≠ 0 → alignDown addr ≠ addr) := by
  have he := alignDown_eq addr h
  have h8 : alignDown addr % 8 = 0 := by rw [he]; omega
  have hle : alignDown addr ≤ addr := by rw [he]; omega
  have hid : alignDown (alignDown addr) = alignDown addr := by
    rw [alignDown_eq (alignDown addr) (lt_of_le_of_lt hle h), h8, Nat.sub_zero]
  refine ⟨he, h8, hle, ?_, ?_, ?_⟩
  · unfold read_stack
    rw [hid]
  · intro hv
    unfold read_stack
    rw [if_pos hv]
  · intro hm
    rw [he]
    omega

/-- C10 (witness at the unaligned address 11). -/
theorem c10_align_down_witness : alignDown 11 = 11 - 11 % 8 :=
  (c10_align_down (fun _ => true) (fun _ => 0) 11 (by decide)).1
